import Mathlib

/-!
# SpiderGrow.io server — shallow embedding and verification

This file embeds the server-side game simulation of SpiderGrow.io
(`src/server.js` and the anti-lag variant `src/unnamed/part_000`) in Lean 4
and proves properties of the tick loop, the collision/consumption resolver,
the spawn policy and the state-broadcast encoder.

Modelling conventions:
* JS numbers used by the simulation are modelled as exact rationals (`ℚ`);
  scores are naturals (they start at 0 and only grow by integer amounts:
  `+1` per pellet and `+ floor(score * 0.5)` per kill).
* `Math.sqrt`-based distance tests are embedded by the equivalent
  squared-distance comparisons so that the simulation stays executable; the
  lemmas `sqrt_lt_iff_q` and `sqrt_add_le_iff_q` prove the equivalence with
  the `Real.sqrt` formulations used in the theorem statements.
* the player map (`players` object, string socket-id keys) is an
  insertion-ordered association list with `Nat` ids;
* random draws (`Math.random()` based positions, colors, the regrowth coin,
  `Date.now()`-based pellet ids) are oracle parameters passed in explicitly;
* socket emissions are collected in a notification list.
-/

namespace SpiderGrow

/-- `MAP_WIDTH` from server.js. -/
def MAP_WIDTH : ℚ := 4000

/-- `MAP_HEIGHT` from server.js. -/
def MAP_HEIGHT : ℚ := 4000

/-- `INITIAL_RADIUS` from server.js. -/
def INITIAL_RADIUS : ℚ := 25

/-- `RADIUS_PER_POINT` from server.js. -/
def RADIUS_PER_POINT : ℚ := 0.6

/-- `MAX_PELLETS` from server.js. -/
def MAX_PELLETS : ℕ := 1200

/-- A 2D position, as produced by `randomPosition()`. -/
structure Pos where
  x : ℚ
  y : ℚ
deriving DecidableEq, Repr

/-- A player record `{ x, y, score, radius, color, name }` from server.js. -/
structure Player where
  x : ℚ
  y : ℚ
  score : ℕ
  radius : ℚ
  color : String
  name : String
deriving DecidableEq, Repr

/-- A pellet record `{ id, x, y }`.  Ids are rationals because regrown
pellets use `Date.now() + Math.random()`, which is fractional. -/
structure Pellet where
  id : ℚ
  x : ℚ
  y : ℚ
deriving DecidableEq, Repr

/-- The squared Euclidean distance between two points.  The source's
`distance(a, b)` is `Real.sqrt` of this quantity; all comparisons against it
are embedded in the equivalent squared form (see `sqrt_lt_iff_q`,
`sqrt_add_le_iff_q`). -/
def dist2 (ax ay bx bY : ℚ) : ℚ :=
  (ax - bx) ^ 2 + (ay - bY) ^ 2

/-- The pellet-consumption test from the game loop:
`distance(player, p) < player.radius + 5`, in squared form. -/
def pelletHit (pl : Player) (p : Pellet) : Prop :=
  0 < pl.radius + 5 ∧ dist2 pl.x pl.y p.x p.y < (pl.radius + 5) ^ 2

instance (pl : Player) (p : Pellet) : Decidable (pelletHit pl p) :=
  decidable_of_iff
    (0 < pl.radius + 5 ∧ dist2 pl.x pl.y p.x p.y < (pl.radius + 5) ^ 2) Iff.rfl

/-- The radius recomputed from a score:
`INITIAL_RADIUS + score * RADIUS_PER_POINT`. -/
def radiusOf (score : ℕ) : ℚ :=
  INITIAL_RADIUS + score * RADIUS_PER_POINT

/-- One player's inner pellet loop from the game loop: iterate over the
pellet array from the last index down to index 0, and on each hit bump the
score, recompute the radius and splice the pellet out.  The recursion
processes the tail (higher indices) first, exactly like the source's
descending index loop over the evolving array. -/
def eatPellets (pl : Player) : List Pellet → Player × List Pellet
  | [] => (pl, [])
  | p :: rest =>
    let r := eatPellets pl rest
    if pelletHit r.1 p then
      ({ r.1 with
          score := r.1.score + 1
          radius := INITIAL_RADIUS + (r.1.score + 1) * RADIUS_PER_POINT },
        r.2)
    else
      (r.1, p :: r.2)

/-- Phase 1 of the game loop: every player (in `Object.entries` insertion
order) runs its pellet loop against the shared pellet list. -/
def pelletPhase : List (ℕ × Player) → List Pellet → List (ℕ × Player) × List Pellet
  | [], pel => ([], pel)
  | (i, pl) :: rest, pel =>
    let r := eatPellets pl pel
    let r2 := pelletPhase rest r.2
    ((i, r.1) :: r2.1, r2.2)

/-- A targeted socket emission (`io.to(id).emit(...)`) produced by the kill
pass. -/
inductive Notif where
  | youAtePlayer (target : ℕ) (gained : ℕ) (victimName : String)
  | youDied (target : ℕ)
deriving DecidableEq, Repr

/-- `players[id]` on the insertion-ordered association list: `some` of the
first (unique) binding, `none` when the id is absent. -/
def lookupP : List (ℕ × Player) → ℕ → Option Player
  | [], _ => none
  | e :: rest, i => if e.1 = i then some e.2 else lookupP rest i

/-- `players[id] = v` when `id` is already present: replace the first
binding in place, preserving insertion order (JS object semantics). -/
def updateP : List (ℕ × Player) → ℕ → Player → List (ℕ × Player)
  | [], _, _ => []
  | e :: rest, i, v => if e.1 = i then (i, v) :: rest else e :: updateP rest i v

/-- The full-containment kill test `d + Rp ≤ Re`, in squared form
(`d = Real.sqrt (dist2 ...)`; see `fullContain_iff_sqrt`). -/
def fullContain (eater prey : Player) : Prop :=
  0 ≤ eater.radius - prey.radius ∧
    dist2 eater.x eater.y prey.x prey.y ≤ (eater.radius - prey.radius) ^ 2

instance (eater prey : Player) : Decidable (fullContain eater prey) :=
  decidable_of_iff
    (0 ≤ eater.radius - prey.radius ∧
      dist2 eater.x eater.y prey.x prey.y ≤ (eater.radius - prey.radius) ^ 2)
    Iff.rfl

/-- The strong-overlap kill test `d < Rp * 0.9`, in squared form
(see `strongOverlap_iff_sqrt`). -/
def strongOverlap (eater prey : Player) : Prop :=
  0 < prey.radius * 0.9 ∧
    dist2 eater.x eater.y prey.x prey.y < (prey.radius * 0.9) ^ 2

instance (eater prey : Player) : Decidable (strongOverlap eater prey) :=
  decidable_of_iff
    (0 < prey.radius * 0.9 ∧
      dist2 eater.x eater.y prey.x prey.y < (prey.radius * 0.9) ^ 2)
    Iff.rfl

/-- The respawn record built for a killed prey: fresh random position,
score 0, radius `INITIAL_RADIUS`, color and name kept from the old record. -/
def respawnPrey (prey : Player) (pos : Pos) : Player :=
  { x := pos.x, y := pos.y, score := 0, radius := INITIAL_RADIUS,
    color := prey.color, name := prey.name }

/-- The eater role of a score-distinct pair: the higher-score member
(`a.score > b.score ? a : b` in the source). -/
def eaterOf (a b : Player) : Player :=
  if a.score > b.score then a else b

/-- The prey role of a score-distinct pair: the lower-score member. -/
def preyOf (a b : Player) : Player :=
  if a.score > b.score then b else a

/-- The id holding the eater role. -/
def eaterIdOf (a b : Player) (ida idb : ℕ) : ℕ :=
  if a.score > b.score then ida else idb

/-- The id holding the prey role. -/
def preyIdOf (a b : Player) (ida idb : ℕ) : ℕ :=
  if a.score > b.score then idb else ida

/-- One iteration of the double loop in phase 2 of the game loop, for the
id pair `(ida, idb)` (`ida` earlier in the `ids` array).  `pos` is the
random respawn position drawn if a kill happens.  Returns the updated
player map and the emissions of this iteration.  `prey.score / 2` is the
source's `Math.floor(prey.score * 0.5)` on a natural score. -/
def pairStep (ps : List (ℕ × Player)) (ida idb : ℕ) (pos : Pos) :
    List (ℕ × Player) × List Notif :=
  match lookupP ps ida, lookupP ps idb with
  | some a, some b =>
    if a.score = b.score then (ps, [])
    else
      let eaterId := if a.score > b.score then ida else idb
      let preyId := if eaterId = ida then idb else ida
      match lookupP ps eaterId, lookupP ps preyId with
      | some eater, some prey =>
        if eater.radius ≤ prey.radius * 1.05 then (ps, [])
        else if ¬fullContain eater prey ∧ ¬strongOverlap eater prey then (ps, [])
        else
          let gained := prey.score / 2
          let newScore := eater.score + gained
          let eater' := { eater with
            score := newScore
            radius := INITIAL_RADIUS + (newScore : ℚ) * RADIUS_PER_POINT }
          let ps2 := updateP (updateP ps eaterId eater') preyId (respawnPrey prey pos)
          (ps2, [Notif.youAtePlayer eaterId gained prey.name, Notif.youDied preyId])
      | _, _ => (ps, [])
  | _, _ => (ps, [])

/-- The ordered pairs `(ids[i], ids[j])`, `i < j`, visited by the double
loop of phase 2. -/
def allPairs : List ℕ → List (ℕ × ℕ)
  | [] => []
  | i :: rest => rest.map (fun j => (i, j)) ++ allPairs rest

/-- Phase 2 of the game loop: run `pairStep` over every pair, accumulating
emissions and consuming one respawn position from the oracle stream `s` per
kill.  `k` indexes the next unused respawn draw. -/
def killLoop (s : ℕ → Pos) : List (ℕ × ℕ) → List (ℕ × Player) → ℕ → List Notif →
    List (ℕ × Player) × List Notif
  | [], ps, _, acc => (ps, acc)
  | pr :: rest, ps, k, acc =>
    let r := pairStep ps pr.1 pr.2 (s k)
    killLoop s rest r.1 (if r.2.isEmpty then k else k + 1) (acc ++ r.2)

/-- The random draws consumed by one regrowth step: the `Math.random() < 0.2`
coin, the fresh position, and the `Date.now() + Math.random()` id. -/
structure RegrowDraw where
  coin : Bool
  pos : Pos
  newId : ℚ
deriving DecidableEq, Repr

/-- Phase 3 of the game loop: if the pellet count is below `MAX_PELLETS`
and the probability-0.2 coin comes up, push exactly one new pellet. -/
def regrow (pel : List Pellet) (d : RegrowDraw) : List Pellet :=
  if pel.length < MAX_PELLETS ∧ d.coin then
    pel ++ [{ id := d.newId, x := d.pos.x, y := d.pos.y }]
  else
    pel

/-- The `state` message broadcast after a tick: the full player mapping,
and an optional pellet list (`server.js` always includes it, `part_000`
only on every 4th tick). -/
structure Payload where
  players : List (ℕ × Player)
  pellets : Option (List Pellet)
deriving DecidableEq, Repr

/-- The random draws one tick consumes: a stream of respawn positions for
kills and the regrowth draw. -/
structure Oracle where
  kills : ℕ → Pos
  draw : RegrowDraw

/-- The result of one tick: post-tick players and pellets, the targeted
emissions of the kill pass, and the broadcast payload. -/
structure TickResult where
  players : List (ℕ × Player)
  pellets : List Pellet
  notifs : List Notif
  payload : Payload

/-- The `gameLoop` body of `src/server.js`: pellet consumption, the
player-vs-player pass, trickle pellet regrowth, then a broadcast carrying
both `players` and `pellets`. -/
def tickServer (ps : List (ℕ × Player)) (pel : List Pellet) (o : Oracle) :
    TickResult :=
  let s1 := pelletPhase ps pel
  let s2 := killLoop o.kills (allPairs (s1.1.map Prod.fst)) s1.1 0 []
  let pel2 := regrow s1.2 o.draw
  { players := s2.1, pellets := pel2, notifs := s2.2,
    payload := { players := s2.1, pellets := some pel2 } }

/-- The `gameLoop` body of `src/unnamed/part_000`: identical simulation,
but the tick counter is incremented first and the broadcast includes
`pellets` only when the incremented counter is a multiple of 4.  Returns
the new counter value alongside the tick result. -/
def tickPart000 (tick : ℕ) (ps : List (ℕ × Player)) (pel : List Pellet)
    (o : Oracle) : ℕ × TickResult :=
  let t := tick + 1
  let s1 := pelletPhase ps pel
  let s2 := killLoop o.kills (allPairs (s1.1.map Prod.fst)) s1.1 0 []
  let pel2 := regrow s1.2 o.draw
  (t, { players := s2.1, pellets := pel2, notifs := s2.2,
        payload := { players := s2.1,
                     pellets := if t % 4 = 0 then some pel2 else none } })

/-- The player record created by the `connection` handler: the drawn random
position (no inset by the radius), score 0, radius `INITIAL_RADIUS`, the
drawn palette color, name `"Anonyme"`. -/
def joinPlayer (pos : Pos) (color : String) : Player :=
  { x := pos.x, y := pos.y, score := 0, radius := INITIAL_RADIUS,
    color := color, name := "Anonyme" }

/-- The range `randomPosition()` draws from: `[0, MAP_WIDTH) × [0, MAP_HEIGHT)`. -/
def inSpawnRange (pos : Pos) : Prop :=
  0 ≤ pos.x ∧ pos.x < MAP_WIDTH ∧ 0 ≤ pos.y ∧ pos.y < MAP_HEIGHT

instance (pos : Pos) : Decidable (inSpawnRange pos) :=
  decidable_of_iff
    (0 ≤ pos.x ∧ pos.x < MAP_WIDTH ∧ 0 ≤ pos.y ∧ pos.y < MAP_HEIGHT) Iff.rfl

/-- The containment invariant: the player's disc lies entirely inside the
map, i.e. its position is in `[radius, mapWidth-radius] × [radius, mapHeight-radius]`. -/
def contained (p : Player) : Prop :=
  p.radius ≤ p.x ∧ p.x ≤ MAP_WIDTH - p.radius ∧
    p.radius ≤ p.y ∧ p.y ≤ MAP_HEIGHT - p.radius

instance (p : Player) : Decidable (contained p) :=
  decidable_of_iff
    (p.radius ≤ p.x ∧ p.x ≤ MAP_WIDTH - p.radius ∧
      p.radius ≤ p.y ∧ p.y ≤ MAP_HEIGHT - p.radius) Iff.rfl

/-- The clamp expression of the `move` handler:
`Math.max(lo, Math.min(hi, v))`. -/
def clampQ (lo hi v : ℚ) : ℚ :=
  max lo (min hi v)

/-- The `move` handler for a numeric `(x, y)` target: clamp both
coordinates with the player's current radius, then store. -/
def applyMove (p : Player) (x y : ℚ) : Player :=
  { p with
    x := max p.radius (min (MAP_WIDTH - p.radius) x)
    y := max p.radius (min (MAP_HEIGHT - p.radius) y) }

/-- The score/radius coupling invariant:
`radius = INITIAL_RADIUS + score * RADIUS_PER_POINT`. -/
def RadInv (p : Player) : Prop :=
  p.radius = INITIAL_RADIUS + p.score * RADIUS_PER_POINT

instance (p : Player) : Decidable (RadInv p) :=
  decidable_of_iff (p.radius = INITIAL_RADIUS + p.score * RADIUS_PER_POINT) Iff.rfl

/-- A JS number as the `move` handler can receive it: finite, `NaN`, or an
infinity (a missing or non-numeric coordinate coerces to `NaN` inside
`Math.min`/`Math.max`). -/
inductive JsNum where
  | nan : JsNum
  | posInf : JsNum
  | negInf : JsNum
  | fin : ℚ → JsNum
deriving DecidableEq, Repr

/-- JS `Math.min`: `NaN` is absorbing, otherwise the usual minimum with
`-Infinity` bottom and `Infinity` top. -/
def jsMin : JsNum → JsNum → JsNum
  | .nan, _ => .nan
  | _, .nan => .nan
  | .negInf, _ => .negInf
  | _, .negInf => .negInf
  | .posInf, b => b
  | a, .posInf => a
  | .fin a, .fin b => .fin (min a b)

/-- JS `Math.max`: `NaN` is absorbing, otherwise the usual maximum. -/
def jsMax : JsNum → JsNum → JsNum
  | .nan, _ => .nan
  | _, .nan => .nan
  | .posInf, _ => .posInf
  | _, .posInf => .posInf
  | .negInf, b => b
  | a, .negInf => a
  | .fin a, .fin b => .fin (max a b)

/-- One coordinate of the `move` handler under full JS number semantics:
`Math.max(r, Math.min(bound - r, v))` for map dimension `bound`. -/
def moveClampJs (r bound : ℚ) (v : JsNum) : JsNum :=
  jsMax (.fin r) (jsMin (.fin (bound - r)) v)

/-- A stored JS coordinate lies in `[lo, hi]`; `NaN` and infinities do not. -/
def jsInRange (lo hi : ℚ) : JsNum → Prop
  | .fin q => lo ≤ q ∧ q ≤ hi
  | _ => False

instance (lo hi : ℚ) (v : JsNum) : Decidable (jsInRange lo hi v) := by
  cases v with
  | nan => exact isFalse (fun h => h)
  | posInf => exact isFalse (fun h => h)
  | negInf => exact isFalse (fun h => h)
  | fin q => exact decidable_of_iff (lo ≤ q ∧ q ≤ hi) Iff.rfl

/-- `generateInitialPellets`: `count` pellets with ids `0, 1, ...`, each at
the next drawn random position. -/
def generateInitialPellets (posDraws : ℕ → Pos) (count : ℕ) : List Pellet :=
  (List.range count).map (fun (i : ℕ) =>
    { id := (i : ℚ), x := (posDraws i).x, y := (posDraws i).y })

/-- Total score of a player map (used to account for consumed pellets). -/
def scoreSum (ps : List (ℕ × Player)) : ℕ :=
  (ps.map (fun e => e.2.score)).sum

/-- Concrete fixture: a large eater (score 125 ⇒ radius 100) at the origin. -/
def plA : Player :=
  { x := 0, y := 0, score := 125, radius := 100, color := "cyan", name := "A" }

/-- Concrete fixture: a small prey (score 10 ⇒ radius 31) at `(60, 0)`. -/
def plB : Player :=
  { x := 60, y := 0, score := 10, radius := 31, color := "pink", name := "B" }

/-- Concrete fixture: the two-player map `{0 ↦ plA, 1 ↦ plB}`. -/
def psAB : List (ℕ × Player) :=
  [(0, plA), (1, plB)]

/-- Concrete fixture: a fixed oracle (respawns at `(7, 8)`, regrowth coin
down). -/
def oracle0 : Oracle :=
  { kills := fun _ => { x := 7, y := 8 }, draw := { coin := false, pos := { x := 0, y := 0 }, newId := 0 } }

/-- Concrete fixture: a player whose score 3292 puts its radius at 2000.2,
past half the map width. -/
def bigPlayer : Player :=
  { x := 100, y := 100, score := 3292, radius := 2000.2, color := "cyan", name := "big" }

/-- Concrete fixture: a pellet eater (score 0, radius 25) at `(10, 10)`. -/
def plC : Player :=
  { x := 10, y := 10, score := 0, radius := 25, color := "green", name := "C" }

/-- Concrete fixture: two pellets both within reach of `plC`. -/
def twoPellets : List Pellet :=
  [{ id := 0, x := 10, y := 10 }, { id := 1, x := 20, y := 10 }]

theorem dist2_nonneg (ax ay bx bY : ℚ) : 0 ≤ dist2 ax ay bx bY :=
  add_nonneg (sq_nonneg _) (sq_nonneg _)

/-- `Real.sqrt D < c` holds iff `0 < c` and `D < c ^ 2`: the squared form
used by the executable conditions is equivalent to the source's `Math.sqrt`
comparison. -/
theorem sqrt_lt_iff_q (D c : ℚ) :
    Real.sqrt (D : ℝ) < (c : ℝ) ↔ (0 < c ∧ D < c ^ 2) := by
  constructor
  · intro h
    have hc : (0 : ℝ) < (c : ℝ) := lt_of_le_of_lt (Real.sqrt_nonneg _) h
    have h2 : (D : ℝ) < (c : ℝ) ^ 2 := (Real.sqrt_lt' hc).mp h
    refine ⟨by exact_mod_cast hc, ?_⟩
    exact_mod_cast h2
  · rintro ⟨hc, h2⟩
    have hc' : (0 : ℝ) < (c : ℝ) := by exact_mod_cast hc
    refine (Real.sqrt_lt' hc').mpr ?_
    exact_mod_cast h2

/-- `Real.sqrt D ≤ c` holds iff `0 ≤ c` and `D ≤ c ^ 2`. -/
theorem sqrt_le_iff_q (D c : ℚ) :
    Real.sqrt (D : ℝ) ≤ (c : ℝ) ↔ (0 ≤ c ∧ D ≤ c ^ 2) := by
  rw [Real.sqrt_le_iff]
  constructor
  · rintro ⟨h1, h2⟩
    refine ⟨by exact_mod_cast h1, ?_⟩
    exact_mod_cast h2
  · rintro ⟨h1, h2⟩
    refine ⟨by exact_mod_cast h1, ?_⟩
    exact_mod_cast h2

/-- `Real.sqrt D + b ≤ a` (the full-containment test `d + Rp ≤ Re`) holds
iff `0 ≤ a - b` and `D ≤ (a - b) ^ 2`. -/
theorem sqrt_add_le_iff_q (D a b : ℚ) :
    Real.sqrt (D : ℝ) + (b : ℝ) ≤ (a : ℝ) ↔ (0 ≤ a - b ∧ D ≤ (a - b) ^ 2) := by
  have h : Real.sqrt (D : ℝ) + (b : ℝ) ≤ (a : ℝ) ↔
      Real.sqrt (D : ℝ) ≤ ((a - b : ℚ) : ℝ) := by
    push_cast
    constructor <;> intro h <;> linarith
  rw [h, sqrt_le_iff_q]

/-- `pelletHit` is exactly the source's `Math.sqrt` comparison. -/
theorem pelletHit_iff_sqrt (pl : Player) (p : Pellet) :
    pelletHit pl p ↔
      Real.sqrt ((dist2 pl.x pl.y p.x p.y : ℚ) : ℝ) < ((pl.radius + 5 : ℚ) : ℝ) :=
  Iff.symm (sqrt_lt_iff_q _ _)

/-- `fullContain` is exactly the source's test `d + Rp ≤ Re`. -/
theorem fullContain_iff_sqrt (eater prey : Player) :
    fullContain eater prey ↔
      Real.sqrt ((dist2 eater.x eater.y prey.x prey.y : ℚ) : ℝ) + (prey.radius : ℝ) ≤
        (eater.radius : ℝ) :=
  Iff.symm (sqrt_add_le_iff_q _ _ _)

/-- `strongOverlap` is exactly the source's test `d < Rp * 0.9`. -/
theorem strongOverlap_iff_sqrt (eater prey : Player) :
    strongOverlap eater prey ↔
      Real.sqrt ((dist2 eater.x eater.y prey.x prey.y : ℚ) : ℝ) <
        ((prey.radius * 0.9 : ℚ) : ℝ) :=
  Iff.symm (sqrt_lt_iff_q _ _)

/-- The surviving pellets of one player's pellet loop form a sublist of the
input pellet list. -/
theorem eatPellets_sublist (pl : Player) (pel : List Pellet) :
    (eatPellets pl pel).2.Sublist pel := by
  induction pel with
  | nil => simp [eatPellets]
  | cons p rest ih =>
    simp only [eatPellets]
    by_cases h : pelletHit (eatPellets pl rest).1 p
    · simp only [if_pos h]
      exact ih.cons p
    · simp only [if_neg h]
      exact ih.cons₂ p

/-- One player's pellet loop conserves score-plus-pellets: the score grows
by exactly the number of pellets removed. -/
theorem eatPellets_score (pl : Player) (pel : List Pellet) :
    (eatPellets pl pel).1.score + (eatPellets pl pel).2.length
      = pl.score + pel.length := by
  induction pel with
  | nil => simp [eatPellets]
  | cons p rest ih =>
    simp only [eatPellets]
    by_cases h : pelletHit (eatPellets pl rest).1 p
    · simp only [if_pos h, List.length_cons]
      omega
    · simp only [if_neg h, List.length_cons]
      omega

/-- Unfolding lemma for `scoreSum`. -/
theorem scoreSum_cons (e : ℕ × Player) (rest : List (ℕ × Player)) :
    scoreSum (e :: rest) = e.2.score + scoreSum rest := by
  simp [scoreSum]

/-- The pellets surviving phase 1 form a sublist of the input pellets: the
phase only removes pellets, and a removed pellet stays removed. -/
theorem pelletPhase_sublist (ps : List (ℕ × Player)) (pel : List Pellet) :
    (pelletPhase ps pel).2.Sublist pel := by
  induction ps generalizing pel with
  | nil => simp [pelletPhase]
  | cons e rest ih =>
    obtain ⟨i, pl⟩ := e
    simp only [pelletPhase]
    exact (ih _).trans (eatPellets_sublist pl pel)

/-- Phase 1 conserves total score plus pellet count: every removed pellet
is accounted for by exactly one score increment of exactly one player. -/
theorem pelletPhase_score (ps : List (ℕ × Player)) (pel : List Pellet) :
    scoreSum (pelletPhase ps pel).1 + (pelletPhase ps pel).2.length
      = scoreSum ps + pel.length := by
  induction ps generalizing pel with
  | nil => simp [pelletPhase]
  | cons e rest ih =>
    obtain ⟨i, pl⟩ := e
    simp only [pelletPhase, scoreSum_cons]
    have h1 := eatPellets_score pl pel
    have h2 := ih ((eatPellets pl pel).2)
    omega

/-- Membership after an in-place update: an element of `updateP ps i v` is
the new binding or an element of the original list. -/
theorem mem_updateP (ps : List (ℕ × Player)) (i : ℕ) (v : Player)
    (x : ℕ × Player) (hx : x ∈ updateP ps i v) : x = (i, v) ∨ x ∈ ps := by
  induction ps with
  | nil => simp [updateP] at hx
  | cons e rest ih =>
    simp only [updateP] at hx
    by_cases h : e.1 = i
    · rw [if_pos h] at hx
      rcases List.mem_cons.mp hx with h1 | h1
      · exact Or.inl h1
      · exact Or.inr (List.mem_cons_of_mem _ h1)
    · rw [if_neg h] at hx
      rcases List.mem_cons.mp hx with h1 | h1
      · exact Or.inr (h1 ▸ List.mem_cons_self _ _)
      · rcases ih h1 with h2 | h2
        · exact Or.inl h2
        · exact Or.inr (List.mem_cons_of_mem _ h2)

/-- The pellet loop keeps the score/radius coupling: every consumption
recomputes the radius from the new score. -/
theorem radInv_eatPellets (pl : Player) (pel : List Pellet) (h : RadInv pl) :
    RadInv (eatPellets pl pel).1 := by
  induction pel with
  | nil => simpa [eatPellets]
  | cons p rest ih =>
    simp only [eatPellets]
    by_cases hc : pelletHit (eatPellets pl rest).1 p
    · simp only [if_pos hc]
      simp [RadInv]
    · simpa only [if_neg hc]

/-- Phase 1 keeps the score/radius coupling for every player. -/
theorem radInv_pelletPhase (ps : List (ℕ × Player)) (pel : List Pellet)
    (h : ∀ e ∈ ps, RadInv e.2) :
    ∀ e ∈ (pelletPhase ps pel).1, RadInv e.2 := by
  induction ps generalizing pel with
  | nil => simp [pelletPhase]
  | cons e rest ih =>
    obtain ⟨i, pl⟩ := e
    simp only [pelletPhase]
    intro x hx
    rcases List.mem_cons.mp hx with h1 | h1
    · rw [h1]
      exact radInv_eatPellets pl pel (h (i, pl) (List.mem_cons_self _ _))
    · exact ih _ (fun e he => h e (List.mem_cons_of_mem _ he)) x h1

/-- Unfolding lemma for `pairStep` once both lookups succeed and the scores
differ: the code reduces to the size gate, the kill test and the kill
effect, with eater/prey the higher/lower-score member. -/
theorem pairStep_spec (ps : List (ℕ × Player)) (ida idb : ℕ) (pos : Pos)
    (a b : Player) (ha : lookupP ps ida = some a) (hb : lookupP ps idb = some b)
    (hne : a.score ≠ b.score) :
    pairStep ps ida idb pos =
      (let eaterId := if a.score > b.score then ida else idb
       let preyId := if a.score > b.score then idb else ida
       let eater := if a.score > b.score then a else b
       let prey := if a.score > b.score then b else a
       if eater.radius ≤ prey.radius * 1.05 then (ps, [])
       else if ¬fullContain eater prey ∧ ¬strongOverlap eater prey then (ps, [])
       else
         (updateP (updateP ps eaterId
             { eater with
                score := eater.score + prey.score / 2
                radius := INITIAL_RADIUS +
                  ((eater.score + prey.score / 2 : ℕ) : ℚ) * RADIUS_PER_POINT })
           preyId (respawnPrey prey pos),
          [Notif.youAtePlayer eaterId (prey.score / 2) prey.name,
           Notif.youDied preyId])) := by
  have hid : idb ≠ ida := by
    intro h
    rw [h, ha] at hb
    exact hne (by rw [Option.some.injEq] at hb; rw [hb])
  by_cases hab : a.score > b.score
  · simp only [pairStep, ha, hb, if_neg hne, if_pos hab, eq_self_iff_true, ite_true,
      ha, hb]
  · simp only [pairStep, ha, hb, if_neg hne, if_neg hab, if_neg hid, ha, hb]

/-- An in-place update keeps the score/radius coupling when the new record
satisfies it. -/
theorem radInv_updateP (ps : List (ℕ × Player)) (i : ℕ) (v : Player)
    (h : ∀ e ∈ ps, RadInv e.2) (hv : RadInv v) :
    ∀ e ∈ updateP ps i v, RadInv e.2 := by
  intro e he
  rcases mem_updateP _ _ _ _ he with h1 | h1
  · rw [h1]
    exact hv
  · exact h e h1

/-- One pair evaluation keeps the score/radius coupling for every player:
the eater's radius is recomputed from its new score and the respawned prey
gets the initial radius for score 0. -/
theorem radInv_pairStep (ps : List (ℕ × Player)) (ida idb : ℕ) (pos : Pos)
    (h : ∀ e ∈ ps, RadInv e.2) :
    ∀ e ∈ (pairStep ps ida idb pos).1, RadInv e.2 := by
  have hresp : ∀ prey pos', RadInv (respawnPrey prey pos') := by
    intro prey pos'
    simp only [RadInv, respawnPrey, INITIAL_RADIUS, RADIUS_PER_POINT]
    norm_num
  rcases hla : lookupP ps ida with _ | a
  · simp only [pairStep, hla]
    exact h
  rcases hlb : lookupP ps idb with _ | b
  · simp only [pairStep, hla, hlb]
    exact h
  by_cases hne : a.score = b.score
  · simp only [pairStep, hla, hlb, if_pos hne]
    exact h
  rw [pairStep_spec ps ida idb pos a b hla hlb hne]
  dsimp only
  split_ifs
  · exact h
  · exact h
  · exact radInv_updateP _ _ _ (radInv_updateP _ _ _ h rfl) (hresp _ _)
  · exact h
  · exact h
  · exact radInv_updateP _ _ _ (radInv_updateP _ _ _ h rfl) (hresp _ _)

/-- The whole kill pass keeps the score/radius coupling. -/
theorem radInv_killLoop (s : ℕ → Pos) (prs : List (ℕ × ℕ))
    (ps : List (ℕ × Player)) (k : ℕ) (acc : List Notif)
    (h : ∀ e ∈ ps, RadInv e.2) :
    ∀ e ∈ (killLoop s prs ps k acc).1, RadInv e.2 := by
  induction prs generalizing ps k acc with
  | nil =>
    simp only [killLoop]
    exact h
  | cons pr rest ih =>
    simp only [killLoop]
    exact ih _ _ _ (radInv_pairStep _ _ _ _ h)

/-- A whole server tick keeps the score/radius coupling for every player. -/
theorem radInv_tickServer (ps : List (ℕ × Player)) (pel : List Pellet)
    (o : Oracle) (h : ∀ e ∈ ps, RadInv e.2) :
    ∀ e ∈ (tickServer ps pel o).players, RadInv e.2 := by
  simp only [tickServer]
  exact radInv_killLoop _ _ _ _ _ (radInv_pelletPhase _ _ h)

/-- Claim C1: after every tick of the anti-lag variant, the broadcast state
message carries the full post-tick player mapping on every tick, and
carries the `pellets` member exactly on ticks whose counter (incremented at
the start of the tick body) is a multiple of 4; on all other ticks the
member is omitted. -/
theorem C1_broadcast_schedule (tick : ℕ) (ps : List (ℕ × Player))
    (pel : List Pellet) (o : Oracle) :
    (tickPart000 tick ps pel o).1 = tick + 1 ∧
    (tickPart000 tick ps pel o).2.payload.players =
      (tickPart000 tick ps pel o).2.players ∧
    ((tick + 1) % 4 = 0 →
      (tickPart000 tick ps pel o).2.payload.pellets =
        some (tickPart000 tick ps pel o).2.pellets) ∧
    ((tick + 1) % 4 ≠ 0 →
      (tickPart000 tick ps pel o).2.payload.pellets = none) := by
  refine ⟨rfl, rfl, ?_, ?_⟩
  · intro h
    simp [tickPart000, h]
  · intro h
    simp [tickPart000, h]

/-- Witness for C1 at concrete ticks: the 4th tick carries pellets, the
1st does not. -/
theorem C1_broadcast_schedule_witness :
    (tickPart000 3 psAB [] oracle0).2.payload.pellets =
      some (tickPart000 3 psAB [] oracle0).2.pellets ∧
    (tickPart000 0 psAB [] oracle0).2.payload.pellets = none :=
  ⟨(C1_broadcast_schedule 3 psAB [] oracle0).2.2.1 (by norm_num),
   (C1_broadcast_schedule 0 psAB [] oracle0).2.2.2 (by norm_num)⟩

/-- Claim C10: on identical inputs and identical random draws, one tick of
`src/server.js` and one tick of `src/unnamed/part_000` produce identical
post-tick players, pellets and kill notifications; they differ only in the
broadcast payload, where `server.js` always includes the pellets member and
`part_000` includes it exactly when the incremented tick counter is a
multiple of 4. -/
theorem C10_variants_agree (tick : ℕ) (ps : List (ℕ × Player))
    (pel : List Pellet) (o : Oracle) :
    (tickPart000 tick ps pel o).2.players = (tickServer ps pel o).players ∧
    (tickPart000 tick ps pel o).2.pellets = (tickServer ps pel o).pellets ∧
    (tickPart000 tick ps pel o).2.notifs = (tickServer ps pel o).notifs ∧
    (tickPart000 tick ps pel o).2.payload.players =
      (tickServer ps pel o).payload.players ∧
    (tickServer ps pel o).payload.pellets = some (tickServer ps pel o).pellets ∧
    ((tick + 1) % 4 = 0 →
      (tickPart000 tick ps pel o).2.payload.pellets =
        (tickServer ps pel o).payload.pellets) ∧
    ((tick + 1) % 4 ≠ 0 →
      (tickPart000 tick ps pel o).2.payload.pellets = none) := by
  refine ⟨rfl, rfl, rfl, rfl, rfl, ?_, ?_⟩
  · intro h
    simp [tickPart000, tickServer, h]
  · intro h
    simp [tickPart000, h]

/-- Witness for C10 at concrete ticks. -/
theorem C10_variants_agree_witness :
    (tickPart000 3 psAB [] oracle0).2.payload.pellets =
      (tickServer psAB [] oracle0).payload.pellets ∧
    (tickPart000 1 psAB [] oracle0).2.payload.pellets = none :=
  ⟨(C10_variants_agree 3 psAB [] oracle0).2.2.2.2.2.1 (by norm_num),
   (C10_variants_agree 1 psAB [] oracle0).2.2.2.2.2.2 (by norm_num)⟩

/-- Claim C6: starting from at most `MAX_PELLETS` pellets, a tick never
ends with more than `MAX_PELLETS` pellets and grows the pellet list by at
most one; the regrowth step appends exactly one pellet carrying the freshly
drawn id exactly when the post-consumption count is below `MAX_PELLETS` and
the probability-0.2 coin succeeds, and leaves the list unchanged otherwise;
the initial field has exactly `MAX_PELLETS` pellets. -/
theorem C6_pellet_cap (ps : List (ℕ × Player)) (pel : List Pellet)
    (o : Oracle) (posDraws : ℕ → Pos) :
    ((pelletPhase ps pel).2.length < MAX_PELLETS ∧ o.draw.coin = true →
      (tickServer ps pel o).pellets =
        (pelletPhase ps pel).2 ++
          [{ id := o.draw.newId, x := o.draw.pos.x, y := o.draw.pos.y }]) ∧
    (¬((pelletPhase ps pel).2.length < MAX_PELLETS ∧ o.draw.coin = true) →
      (tickServer ps pel o).pellets = (pelletPhase ps pel).2) ∧
    (tickServer ps pel o).pellets.length ≤ pel.length + 1 ∧
    (pel.length ≤ MAX_PELLETS →
      (tickServer ps pel o).pellets.length ≤ MAX_PELLETS) ∧
    (generateInitialPellets posDraws MAX_PELLETS).length = MAX_PELLETS := by
  have base : (tickServer ps pel o).pellets = regrow (pelletPhase ps pel).2 o.draw :=
    rfl
  have hsub : (pelletPhase ps pel).2.length ≤ pel.length :=
    (pelletPhase_sublist ps pel).length_le
  refine ⟨?_, ?_, ?_, ?_, ?_⟩
  · intro h
    rw [base, regrow, if_pos h]
  · intro h
    rw [base, regrow, if_neg h]
  · rw [base, regrow]
    split_ifs with h
    · simp only [List.length_append, List.length_cons, List.length_nil]
      omega
    · omega
  · intro hcap
    rw [base, regrow]
    split_ifs with h
    · simp only [List.length_append, List.length_cons, List.length_nil]
      omega
    · omega
  · simp [generateInitialPellets]

/-- Witness for C6 at a concrete world: with no players, no pellets and the
coin up, the tick appends exactly the freshly drawn pellet; the cap holds. -/
theorem C6_pellet_cap_witness :
    (tickServer [] []
        { kills := fun _ => { x := 7, y := 8 },
          draw := { coin := true, pos := { x := 1, y := 2 }, newId := 42 } }).pellets =
      [{ id := 42, x := 1, y := 2 }] ∧
    (tickServer [] []
        { kills := fun _ => { x := 7, y := 8 },
          draw := { coin := true, pos := { x := 1, y := 2 }, newId := 42 } }).pellets.length
      ≤ MAX_PELLETS := by
  have h := C6_pellet_cap [] []
    { kills := fun _ => { x := 7, y := 8 },
      draw := { coin := true, pos := { x := 1, y := 2 }, newId := 42 } }
    (fun _ => { x := 0, y := 0 })
  refine ⟨?_, h.2.2.2.1 (by norm_num [MAX_PELLETS])⟩
  have h1 := h.1 ⟨by norm_num [pelletPhase, MAX_PELLETS], rfl⟩
  rw [h1]
  rfl

/-- Claim C7 (refuted as stated; the code is buggy on `NaN`): the move
handler clamp `Math.max(r, Math.min(W - r, v))` does recover `Infinity` and
`-Infinity` into the map and clamps every finite target, but a `NaN`
coordinate (including a missing or non-numeric one, which coerces to `NaN`)
propagates through `Math.min`/`Math.max` and is stored as is, leaving the
position outside `[radius, mapWidth - radius]` — contradicting both the
spec's error taxonomy and the source comment that the clamp keeps the
spider entirely inside the map. -/
theorem C7_nan_move_not_clamped :
    moveClampJs 25 MAP_WIDTH JsNum.nan = JsNum.nan ∧
    ¬jsInRange 25 (MAP_WIDTH - 25) (moveClampJs 25 MAP_WIDTH JsNum.nan) ∧
    moveClampJs 25 MAP_WIDTH JsNum.posInf = JsNum.fin (MAP_WIDTH - 25) ∧
    moveClampJs 25 MAP_WIDTH JsNum.negInf = JsNum.fin 25 ∧
    (∀ q : ℚ, moveClampJs 25 MAP_WIDTH (JsNum.fin q) =
      JsNum.fin (clampQ 25 (MAP_WIDTH - 25) q)) := by
  refine ⟨rfl, ?_, ?_, ?_, fun q => rfl⟩
  · intro h
    exact h
  · show JsNum.fin (max 25 (MAP_WIDTH - 25)) = JsNum.fin (MAP_WIDTH - 25)
    norm_num [MAP_WIDTH]
  · show JsNum.fin (max 25 25) = JsNum.fin 25
    norm_num

/-- Claim C8: for every numeric move target the stored position is exactly
the clamp of the target into `[r, mapWidth - r] × [r, mapHeight - r]` with
`r` the player's current radius; the clamp expression agrees with the
canonical clamp on a nonempty interval; a radius-25 player moving to
`(-500, 10000)` on the 4000×4000 map is stored at `(25, 3975)`. -/
theorem C8_move_clamp :
    (∀ (p : Player) (x y : ℚ),
      applyMove p x y =
        { p with
            x := clampQ p.radius (MAP_WIDTH - p.radius) x
            y := clampQ p.radius (MAP_HEIGHT - p.radius) y }) ∧
    (∀ lo hi v : ℚ, lo ≤ hi →
      lo ≤ clampQ lo hi v ∧ clampQ lo hi v ≤ hi ∧
        clampQ lo hi v = min hi (max lo v)) ∧
    (∀ p : Player, p.radius = 25 →
      (applyMove p (-500) 10000).x = 25 ∧ (applyMove p (-500) 10000).y = 3975) := by
  refine ⟨fun p x y => rfl, ?_, ?_⟩
  · intro lo hi v hle
    refine ⟨le_max_left _ _, max_le hle (min_le_left _ _), ?_⟩
    rw [clampQ, max_min_distrib_left, max_eq_right hle]
  · intro p hr
    constructor
    · show max p.radius (min (MAP_WIDTH - p.radius) (-500)) = 25
      rw [hr]
      norm_num [MAP_WIDTH]
    · show max p.radius (min (MAP_HEIGHT - p.radius) 10000) = 3975
      rw [hr]
      norm_num [MAP_HEIGHT]

/-- Witness for C8: the spec's clamp scenario at the concrete fixture
`plC` (radius 25), plus a concrete nonempty-interval clamp agreement. -/
theorem C8_move_clamp_witness :
    (applyMove plC (-500) 10000).x = 25 ∧ (applyMove plC (-500) 10000).y = 3975 ∧
    clampQ 0 10 99 = min 10 (max 0 99) :=
  ⟨(C8_move_clamp.2.2 plC rfl).1, (C8_move_clamp.2.2 plC rfl).2,
   (C8_move_clamp.2.1 0 10 99 (by norm_num)).2.2⟩

/-- Claim C9: join and victim respawn place the player exactly at the
drawn position with radius `INITIAL_RADIUS` (no inset by the radius), and
some draws inside the legal spawn range `[0, mapWidth) × [0, mapHeight)`
leave the new player violating the containment invariant. -/
theorem C9_spawn_no_inset :
    (∀ (pos : Pos) (c : String),
      (joinPlayer pos c).x = pos.x ∧ (joinPlayer pos c).y = pos.y ∧
      (joinPlayer pos c).score = 0 ∧ (joinPlayer pos c).radius = INITIAL_RADIUS ∧
      (joinPlayer pos c).name = "Anonyme") ∧
    (∀ (prey : Player) (pos : Pos),
      (respawnPrey prey pos).x = pos.x ∧ (respawnPrey prey pos).y = pos.y ∧
      (respawnPrey prey pos).radius = INITIAL_RADIUS) ∧
    (∃ pos : Pos, inSpawnRange pos ∧ ∀ c, ¬contained (joinPlayer pos c)) ∧
    (∃ (prey : Player) (pos : Pos),
      inSpawnRange pos ∧ ¬contained (respawnPrey prey pos)) := by
  refine ⟨fun pos c => ⟨rfl, rfl, rfl, rfl, rfl⟩,
    fun prey pos => ⟨rfl, rfl, rfl⟩, ?_, ?_⟩
  · refine ⟨{ x := 0, y := 0 }, ?_, ?_⟩
    · norm_num [inSpawnRange, MAP_WIDTH, MAP_HEIGHT]
    · intro c h
      have := h.1
      norm_num [joinPlayer, INITIAL_RADIUS] at this
  · refine ⟨plA, { x := 0, y := 0 }, ?_, ?_⟩
    · norm_num [inSpawnRange, MAP_WIDTH, MAP_HEIGHT]
    · intro h
      have := h.1
      norm_num [respawnPrey, INITIAL_RADIUS] at this

/-- Claim C2 (amended): the score/radius coupling
`radius = INITIAL_RADIUS + score * RADIUS_PER_POINT` is established by join
and preserved by pellet consumption, by the whole tick (kill gain and
victim respawn included) and by moves; and after any applied numeric move
the position lies in `[radius, mapWidth-radius] × [radius, mapHeight-radius]`
provided the player's diameter does not exceed the map
(`2 * radius ≤ mapWidth`, i.e. score ≤ 3291). -/
theorem C2_radius_coupling_and_move_bounds :
    (∀ (pos : Pos) (c : String), RadInv (joinPlayer pos c)) ∧
    (∀ (pl : Player) (pel : List Pellet), RadInv pl → RadInv (eatPellets pl pel).1) ∧
    (∀ (ps : List (ℕ × Player)) (pel : List Pellet) (o : Oracle),
      (∀ e ∈ ps, RadInv e.2) → ∀ e ∈ (tickServer ps pel o).players, RadInv e.2) ∧
    (∀ (p : Player) (x y : ℚ),
      (applyMove p x y).score = p.score ∧ (applyMove p x y).radius = p.radius) ∧
    (∀ (p : Player) (x y : ℚ), 2 * p.radius ≤ MAP_WIDTH →
      contained (applyMove p x y)) := by
  refine ⟨?_, radInv_eatPellets, radInv_tickServer, fun p x y => ⟨rfl, rfl⟩, ?_⟩
  · intro pos c
    norm_num [RadInv, joinPlayer, INITIAL_RADIUS, RADIUS_PER_POINT]
  · intro p x y h
    have hWH : MAP_HEIGHT = MAP_WIDTH := rfl
    have hW : p.radius ≤ MAP_WIDTH - p.radius := by linarith
    have hH : p.radius ≤ MAP_HEIGHT - p.radius := by rw [hWH]; linarith
    exact ⟨le_max_left _ _, max_le hW (min_le_left _ _),
      le_max_left _ _, max_le hH (min_le_left _ _)⟩

/-- Witness for C2 at concrete inputs: a joined player satisfies the
coupling, the pellet loop preserves it, and a radius-25 player stays
contained after a move to a far corner. -/
theorem C2_radius_coupling_and_move_bounds_witness :
    RadInv (eatPellets plC twoPellets).1 ∧ contained (applyMove plC 9999 9999) := by
  have h := C2_radius_coupling_and_move_bounds
  constructor
  · exact h.2.1 plC twoPellets (by norm_num [RadInv, plC, INITIAL_RADIUS, RADIUS_PER_POINT])
  · exact h.2.2.2.2 plC 9999 9999 (by norm_num [plC, MAP_WIDTH])

/-- Counterexample to C2 as stated: `bigPlayer` has score 3292, the radius
2000.2 the coupling prescribes — past half the 4000-wide map — and after
the applied move to `(3000, 3000)` its stored position violates
`x ≤ mapWidth - radius`. -/
theorem C2_counterexample :
    RadInv bigPlayer ∧ ¬contained (applyMove bigPlayer 3000 3000) := by
  constructor
  · norm_num [RadInv, bigPlayer, INITIAL_RADIUS, RADIUS_PER_POINT]
  · intro h
    have hx := h.2.1
    have e1 : (applyMove bigPlayer 3000 3000).radius = bigPlayer.radius := rfl
    have e2 : (applyMove bigPlayer 3000 3000).x
        = max bigPlayer.radius (min (MAP_WIDTH - bigPlayer.radius) 3000) := rfl
    rw [e1, e2] at hx
    rw [show min (MAP_WIDTH - bigPlayer.radius) 3000 = MAP_WIDTH - bigPlayer.radius
        from min_eq_left (by norm_num [bigPlayer, MAP_WIDTH])] at hx
    rw [show max bigPlayer.radius (MAP_WIDTH - bigPlayer.radius) = bigPlayer.radius
        from max_eq_left (by norm_num [bigPlayer, MAP_WIDTH])] at hx
    norm_num [bigPlayer, MAP_WIDTH] at hx

/-- Claim C5: in the pellet pass a player consumes a pellet exactly when
its center distance to the pellet is below `radius + 5` (radius taken at
the moment of the check); each consumption bumps the score by 1, recomputes
the radius from the score formula and removes the pellet; the pass
conserves score-plus-pellets (each removed pellet is consumed by exactly
one player) and only removes pellets; and a single player can consume
several pellets in one tick (`plC` eats both fixture pellets). -/
theorem C5_pellet_consumption :
    (∀ (pl : Player) (p : Pellet) (rest : List Pellet),
      (Real.sqrt ((dist2 (eatPellets pl rest).1.x (eatPellets pl rest).1.y
            p.x p.y : ℚ) : ℝ) < (((eatPellets pl rest).1.radius + 5 : ℚ) : ℝ) →
        eatPellets pl (p :: rest) =
          ({ (eatPellets pl rest).1 with
              score := (eatPellets pl rest).1.score + 1
              radius := INITIAL_RADIUS +
                ((eatPellets pl rest).1.score + 1) * RADIUS_PER_POINT },
            (eatPellets pl rest).2)) ∧
      (¬(Real.sqrt ((dist2 (eatPellets pl rest).1.x (eatPellets pl rest).1.y
            p.x p.y : ℚ) : ℝ) < (((eatPellets pl rest).1.radius + 5 : ℚ) : ℝ)) →
        eatPellets pl (p :: rest) =
          ((eatPellets pl rest).1, p :: (eatPellets pl rest).2))) ∧
    (∀ (ps : List (ℕ × Player)) (pel : List Pellet),
      scoreSum (pelletPhase ps pel).1 + (pelletPhase ps pel).2.length
          = scoreSum ps + pel.length ∧
      (pelletPhase ps pel).2.Sublist pel) ∧
    (eatPellets plC twoPellets).1.score = plC.score + 2 ∧
    (eatPellets plC twoPellets).2 = [] := by
  refine ⟨?_, fun ps pel => ⟨pelletPhase_score ps pel, pelletPhase_sublist ps pel⟩,
    ?_, ?_⟩
  · intro pl p rest
    constructor
    · intro h
      have hc : pelletHit (eatPellets pl rest).1 p :=
        (pelletHit_iff_sqrt _ _).mpr h
      simp only [eatPellets, if_pos hc]
    · intro h
      have hc : ¬pelletHit (eatPellets pl rest).1 p :=
        fun hc => h ((pelletHit_iff_sqrt _ _).mp hc)
      simp only [eatPellets, if_neg hc]
  · norm_num [eatPellets, pelletHit, dist2, plC, twoPellets, INITIAL_RADIUS,
      RADIUS_PER_POINT]
  · norm_num [eatPellets, pelletHit, dist2, plC, twoPellets, INITIAL_RADIUS,
      RADIUS_PER_POINT]

/-- Square root of the concrete squared distance used by the witnesses. -/
theorem sqrt_3600 : Real.sqrt (((3600 : ℚ) : ℝ)) = 60 := by
  rw [show ((3600 : ℚ) : ℝ) = (60 : ℝ) ^ 2 by norm_num, Real.sqrt_sq (by norm_num)]

/-- Claim C3: in a pair evaluation, equal scores change nothing; otherwise
the eater is the higher-score member, no kill happens when
`eater.radius ≤ prey.radius * 1.05` (the state is unchanged), and past that
gate a kill happens exactly when `d + prey.radius ≤ eater.radius` or
`d < prey.radius * 0.9` with `d` the center distance; when neither holds
the pair evaluation leaves the state unchanged. -/
theorem C3_pair_rules (ps : List (ℕ × Player)) (ida idb : ℕ) (pos : Pos)
    (a b : Player) (ha : lookupP ps ida = some a) (hb : lookupP ps idb = some b) :
    (a.score = b.score → pairStep ps ida idb pos = (ps, [])) ∧
    (a.score ≠ b.score →
      ((eaterOf a b).radius ≤ (preyOf a b).radius * 1.05 →
        pairStep ps ida idb pos = (ps, [])) ∧
      (¬((eaterOf a b).radius ≤ (preyOf a b).radius * 1.05) →
        ((pairStep ps ida idb pos).2 ≠ [] ↔
          (Real.sqrt ((dist2 (eaterOf a b).x (eaterOf a b).y (preyOf a b).x
              (preyOf a b).y : ℚ) : ℝ) + ((preyOf a b).radius : ℝ) ≤
                ((eaterOf a b).radius : ℝ) ∨
            Real.sqrt ((dist2 (eaterOf a b).x (eaterOf a b).y (preyOf a b).x
              (preyOf a b).y : ℚ) : ℝ) < (((preyOf a b).radius * 0.9 : ℚ) : ℝ))) ∧
        (¬(Real.sqrt ((dist2 (eaterOf a b).x (eaterOf a b).y (preyOf a b).x
              (preyOf a b).y : ℚ) : ℝ) + ((preyOf a b).radius : ℝ) ≤
                ((eaterOf a b).radius : ℝ) ∨
            Real.sqrt ((dist2 (eaterOf a b).x (eaterOf a b).y (preyOf a b).x
              (preyOf a b).y : ℚ) : ℝ) < (((preyOf a b).radius * 0.9 : ℚ) : ℝ)) →
          pairStep ps ida idb pos = (ps, [])))) := by
  refine ⟨?_, ?_⟩
  · intro heq
    simp only [pairStep, ha, hb, if_pos heq]
  · intro hne
    have hspec := pairStep_spec ps ida idb pos a b ha hb hne
    by_cases hab : a.score > b.score
    · have hfc := fullContain_iff_sqrt a b
      have hso := strongOverlap_iff_sqrt a b
      simp only [eaterOf, preyOf, if_pos hab]
      rw [hspec]
      dsimp only
      simp only [if_pos hab]
      refine ⟨fun hsize => by rw [if_pos hsize], fun hsize => ?_⟩
      rw [if_neg hsize]
      refine ⟨?_, ?_⟩
      · by_cases hk : ¬fullContain a b ∧ ¬strongOverlap a b
        · rw [if_pos hk]
          constructor
          · intro hcon
            exact absurd rfl hcon
          · intro hkc
            exfalso
            rcases hkc with h1 | h1
            · exact hk.1 (hfc.mpr h1)
            · exact hk.2 (hso.mpr h1)
        · rw [if_neg hk]
          have hor : fullContain a b ∨ strongOverlap a b := by
            by_cases h1 : fullContain a b
            · exact Or.inl h1
            · by_cases h2 : strongOverlap a b
              · exact Or.inr h2
              · exact absurd ⟨h1, h2⟩ hk
          exact iff_of_true (by simp) (hor.imp hfc.mp hso.mp)
      · intro hnk
        have hk : ¬fullContain a b ∧ ¬strongOverlap a b :=
          ⟨fun hc => hnk (Or.inl (hfc.mp hc)), fun hc => hnk (Or.inr (hso.mp hc))⟩
        rw [if_pos hk]
    · have hfc := fullContain_iff_sqrt b a
      have hso := strongOverlap_iff_sqrt b a
      simp only [eaterOf, preyOf, if_neg hab]
      rw [hspec]
      dsimp only
      simp only [if_neg hab]
      refine ⟨fun hsize => by rw [if_pos hsize], fun hsize => ?_⟩
      rw [if_neg hsize]
      refine ⟨?_, ?_⟩
      · by_cases hk : ¬fullContain b a ∧ ¬strongOverlap b a
        · rw [if_pos hk]
          constructor
          · intro hcon
            exact absurd rfl hcon
          · intro hkc
            exfalso
            rcases hkc with h1 | h1
            · exact hk.1 (hfc.mpr h1)
            · exact hk.2 (hso.mpr h1)
        · rw [if_neg hk]
          have hor : fullContain b a ∨ strongOverlap b a := by
            by_cases h1 : fullContain b a
            · exact Or.inl h1
            · by_cases h2 : strongOverlap b a
              · exact Or.inr h2
              · exact absurd ⟨h1, h2⟩ hk
          exact iff_of_true (by simp) (hor.imp hfc.mp hso.mp)
      · intro hnk
        have hk : ¬fullContain b a ∧ ¬strongOverlap b a :=
          ⟨fun hc => hnk (Or.inl (hfc.mp hc)), fun hc => hnk (Or.inr (hso.mp hc))⟩
        rw [if_pos hk]

/-- Witness for C3: for the concrete pair `plA` (score 125, radius 100) and
`plB` (score 10, radius 31) at distance 60, the kill test holds by full
containment, so the pair evaluation emits notifications. -/
theorem C3_pair_rules_witness :
    (pairStep psAB 0 1 { x := 7, y := 8 }).2 ≠ [] := by
  have h := C3_pair_rules psAB 0 1 { x := 7, y := 8 } plA plB rfl rfl
  have hne : plA.score ≠ plB.score := by norm_num [plA, plB]
  have hsize : ¬((eaterOf plA plB).radius ≤ (preyOf plA plB).radius * 1.05) := by
    norm_num [eaterOf, preyOf, plA, plB]
  have h3 := ((h.2 hne).2 hsize).1
  apply h3.mpr
  left
  have hd : (dist2 (eaterOf plA plB).x (eaterOf plA plB).y (preyOf plA plB).x
      (preyOf plA plB).y : ℚ) = 3600 := by
    norm_num [dist2, eaterOf, preyOf, plA, plB]
  rw [hd, sqrt_3600]
  norm_num [eaterOf, preyOf, plA, plB]

/-- Claim C4: on a kill, the eater's score grows by exactly
`floor(prey.score * 0.5)` with the radius recomputed from the new score,
the prey's record is replaced in place by score 0, radius `INITIAL_RADIUS`,
the drawn position, and the old color and name, and exactly two
notifications are emitted: `youAtePlayer {gained, victimName}` to the eater
and `youDied` to the prey. -/
theorem C4_kill_effects (ps : List (ℕ × Player)) (ida idb : ℕ) (pos : Pos)
    (a b : Player) (ha : lookupP ps ida = some a) (hb : lookupP ps idb = some b)
    (hne : a.score ≠ b.score)
    (hsize : (preyOf a b).radius * 1.05 < (eaterOf a b).radius)
    (hkill : Real.sqrt ((dist2 (eaterOf a b).x (eaterOf a b).y (preyOf a b).x
          (preyOf a b).y : ℚ) : ℝ) + ((preyOf a b).radius : ℝ) ≤
            ((eaterOf a b).radius : ℝ) ∨
        Real.sqrt ((dist2 (eaterOf a b).x (eaterOf a b).y (preyOf a b).x
          (preyOf a b).y : ℚ) : ℝ) < (((preyOf a b).radius * 0.9 : ℚ) : ℝ)) :
    pairStep ps ida idb pos =
      (updateP (updateP ps (eaterIdOf a b ida idb)
          { eaterOf a b with
              score := (eaterOf a b).score + (preyOf a b).score / 2
              radius := INITIAL_RADIUS +
                (((eaterOf a b).score + (preyOf a b).score / 2 : ℕ) : ℚ) *
                  RADIUS_PER_POINT })
        (preyIdOf a b ida idb)
        { x := pos.x, y := pos.y, score := 0, radius := INITIAL_RADIUS,
          color := (preyOf a b).color, name := (preyOf a b).name },
       [Notif.youAtePlayer (eaterIdOf a b ida idb) ((preyOf a b).score / 2)
          (preyOf a b).name,
        Notif.youDied (preyIdOf a b ida idb)]) ∧
    (preyOf a b).score / 2 = ⌊((preyOf a b).score : ℚ) * 0.5⌋₊ := by
  constructor
  · have hspec := pairStep_spec ps ida idb pos a b ha hb hne
    by_cases hab : a.score > b.score
    · simp only [eaterOf, preyOf, eaterIdOf, preyIdOf, if_pos hab] at hsize hkill ⊢
      rw [hspec]
      dsimp only
      simp only [if_pos hab]
      rw [if_neg (not_le.mpr hsize)]
      have hk : ¬(¬fullContain a b ∧ ¬strongOverlap a b) := by
        intro hc
        rcases hkill with h1 | h1
        · exact hc.1 ((fullContain_iff_sqrt a b).mpr h1)
        · exact hc.2 ((strongOverlap_iff_sqrt a b).mpr h1)
      rw [if_neg hk]
      rfl
    · simp only [eaterOf, preyOf, eaterIdOf, preyIdOf, if_neg hab] at hsize hkill ⊢
      rw [hspec]
      dsimp only
      simp only [if_neg hab]
      rw [if_neg (not_le.mpr hsize)]
      have hk : ¬(¬fullContain b a ∧ ¬strongOverlap b a) := by
        intro hc
        rcases hkill with h1 | h1
        · exact hc.1 ((fullContain_iff_sqrt b a).mpr h1)
        · exact hc.2 ((strongOverlap_iff_sqrt b a).mpr h1)
      rw [if_neg hk]
      rfl
  · have hhalf : ((preyOf a b).score : ℚ) * 0.5 = ((preyOf a b).score : ℚ) / ((2 : ℕ) : ℚ) := by
      push_cast
      ring
    rw [hhalf, Nat.floor_div_eq_div]

/-- Witness for C4: the concrete kill of `plB` (score 10) by `plA`
(score 125): gained 5, eater recomputed to radius 103, prey respawned in
place at `(7, 8)` with its color and name, two notifications. -/
theorem C4_kill_effects_witness :
    pairStep psAB 0 1 { x := 7, y := 8 } =
      ([(0, { x := 0, y := 0, score := 130, radius := 103, color := "cyan", name := "A" }),
        (1, { x := 7, y := 8, score := 0, radius := 25, color := "pink", name := "B" })],
       [Notif.youAtePlayer 0 5 "B", Notif.youDied 1]) := by
  have h := C4_kill_effects psAB 0 1 { x := 7, y := 8 } plA plB rfl rfl
    (by norm_num [plA, plB])
    (by norm_num [eaterOf, preyOf, plA, plB])
    (Or.inl (by
      have hd : (dist2 (eaterOf plA plB).x (eaterOf plA plB).y (preyOf plA plB).x
          (preyOf plA plB).y : ℚ) = 3600 := by
        norm_num [dist2, eaterOf, preyOf, plA, plB]
      rw [hd, sqrt_3600]
      norm_num [eaterOf, preyOf, plA, plB]))
  rw [h.1]
  norm_num [updateP, psAB, eaterOf, preyOf, eaterIdOf, preyIdOf, plA, plB,
    INITIAL_RADIUS, RADIUS_PER_POINT]

/-- Witness for C5: a pellet exactly at the center of `plC` (distance 0,
radius 25) is consumed: score 0 → 1, radius recomputed, pellet removed. -/
theorem C5_pellet_consumption_witness :
    eatPellets plC [{ id := 0, x := 10, y := 10 }] =
      ({ plC with
          score := plC.score + 1
          radius := INITIAL_RADIUS + (plC.score + 1) * RADIUS_PER_POINT }, []) := by
  have h := (C5_pellet_consumption.1 plC { id := 0, x := 10, y := 10 } []).1
  have hd : (dist2 (eatPellets plC []).1.x (eatPellets plC []).1.y
      ({ id := 0, x := 10, y := 10 } : Pellet).x
      ({ id := 0, x := 10, y := 10 } : Pellet).y : ℚ) = 0 := by
    norm_num [eatPellets, dist2, plC]
  have hcond : Real.sqrt ((dist2 (eatPellets plC []).1.x (eatPellets plC []).1.y
      ({ id := 0, x := 10, y := 10 } : Pellet).x
      ({ id := 0, x := 10, y := 10 } : Pellet).y : ℚ) : ℝ) <
      (((eatPellets plC []).1.radius + 5 : ℚ) : ℝ) := by
    rw [hd]
    norm_num [eatPellets, plC]
  exact h hcond

end SpiderGrow
